import Mathlib

/-!
Verification development for the Agentic-Product-Assistant repository.

The Python sources are shallowly embedded as Lean definitions:
machine floats are modelled as rationals, Python ints as integers,
dynamically typed values (where a claim depends on dynamic typing)
as the `PyVal` fragment below, stateful methods as explicit state
passing, and fallible constructors as `Except String`.
External effects (uuid generation, the current date, the filesystem,
the HTTP transport, the LLM) are passed in as explicit parameters.
-/

namespace ProductAssistant

/-! ## A fragment of Python values, for dynamically checked constructors
(`data_models.py`, `Product.__post_init__`). -/

/-- A small fragment of Python runtime values: strings, ints, floats
(modelled as rationals) and None. -/
inductive PyVal where
  | str (s : String)
  | int (n : ℤ)
  | float (q : ℚ)
  | pynone
deriving DecidableEq, Repr

namespace PyVal

/-- Python truthiness on the fragment: empty string, zero and None are falsy. -/
def truthy : PyVal → Bool
  | .str s => s ≠ ""
  | .int n => n ≠ 0
  | .float q => q ≠ 0
  | .pynone => false

/-- Python `isinstance(v, str)`. -/
def isStr : PyVal → Bool
  | .str _ => true
  | _ => false

/-- Python `isinstance(v, (int, float))`. -/
def isNum : PyVal → Bool
  | .int _ => true
  | .float _ => true
  | _ => false

/-- Python `isinstance(v, int)`. -/
def isInt : PyVal → Bool
  | .int _ => true
  | _ => false

/-- Numeric value of a Python number (0 on non-numbers; only ever used
behind an `isNum`/`isInt` guard, mirroring short-circuit evaluation). -/
def numVal : PyVal → ℚ
  | .int n => (n : ℚ)
  | .float q => q
  | _ => 0

end PyVal

/-- Decidable equality for `Except`, used to evaluate the fallible
constructors on concrete inputs. -/
def exceptDecEq {e a : Type} [DecidableEq e] [DecidableEq a] :
    DecidableEq (Except e a) := fun x y =>
  match x, y with
  | .error u, .error v =>
      if h : u = v then .isTrue (by rw [h])
      else .isFalse (fun hc => h (by injection hc))
  | .ok u, .ok v =>
      if h : u = v then .isTrue (by rw [h])
      else .isFalse (fun hc => h (by injection hc))
  | .error _, .ok _ => .isFalse (fun hc => Except.noConfusion hc)
  | .ok _, .error _ => .isFalse (fun hc => Except.noConfusion hc)

instance {e a : Type} [DecidableEq e] [DecidableEq a] : DecidableEq (Except e a) :=
  exceptDecEq

/-! ## `data_models.py`: `Product` (dynamic construction) -/

/-- A `Product` as stored by the Python dataclass: the fields exactly as
passed to the constructor (`__post_init__` validates but does not
transform them). -/
structure RawProduct where
  product_id : PyVal
  name : PyVal
  description : PyVal
  price : PyVal
  stock_quantity : PyVal
  category : PyVal
deriving DecidableEq, Repr

/-- `Product.__post_init__` followed by returning the dataclass instance:
each `if not field or not isinstance(...)` check in source order, raising
`ValueError` (modelled as `Except.error`) with the source message. -/
def productNew (product_id name description price stock_quantity category : PyVal) :
    Except String RawProduct :=
  if ¬ product_id.truthy ∨ ¬ product_id.isStr then
    .error "Product ID must be a non-empty string"
  else if ¬ name.truthy ∨ ¬ name.isStr then
    .error "Product name must be a non-empty string"
  else if ¬ price.isNum ∨ price.numVal < 0 then
    .error "Price must be a non-negative number"
  else if ¬ stock_quantity.isInt ∨ stock_quantity.numVal < 0 then
    .error "Stock quantity must be a non-negative integer"
  else if ¬ category.truthy ∨ ¬ category.isStr then
    .error "Category must be a non-empty string"
  else
    .ok ⟨product_id, name, description, price, stock_quantity, category⟩

/-- `Product.is_in_stock(quantity)`: `self.stock_quantity >= quantity`.
On a validated product the stock field is an int. -/
def RawProduct.is_in_stock (p : RawProduct) (quantity : ℤ) : Bool :=
  match p.stock_quantity with
  | .int n => quantity ≤ n
  | _ => false

/-! ## Python numeric string conversions

`str()` on ints and the Python `int()` parser are modelled exactly
(decimal digits, optional leading minus sign).  Python floats are
modelled as rationals throughout; `str()` on a float and `float()` on
its output are modelled as an injective rational rendering together
with its parser, preserving the round-trip guarantee Python gives
(`float(str(x)) == x`). -/

/-- Decimal digit to character. -/
def digitChar : ℕ → Char
  | 0 => '0' | 1 => '1' | 2 => '2' | 3 => '3' | 4 => '4'
  | 5 => '5' | 6 => '6' | 7 => '7' | 8 => '8' | _ => '9'

/-- Is this character a decimal digit. -/
def isDigitCh (c : Char) : Bool := decide ('0' ≤ c ∧ c ≤ '9')

/-- Numeric value of a digit character. -/
def digitVal (c : Char) : ℕ := c.toNat - 48

/-- Python `str()` on a non-negative int, as a character list. -/
def natToStrL (n : ℕ) : List Char :=
  if n = 0 then ['0'] else ((Nat.digits 10 n).map digitChar).reverse

/-- Parser for the output of `natToStrL` (the digits-only core of
Python `int()`). -/
def parseNatL (l : List Char) : Option ℕ :=
  if l.isEmpty then none
  else if l.all isDigitCh then some (Nat.ofDigits 10 ((l.map digitVal).reverse))
  else none

/-- Python `str()` on an int, as a character list. -/
def intToStrL (n : ℤ) : List Char :=
  if n < 0 then '-' :: natToStrL n.natAbs else natToStrL n.natAbs

/-- Parser for the output of `intToStrL` (the sign-and-digits core of
Python `int()`). -/
def parseIntL : List Char → Option ℤ
  | [] => none
  | c :: rest =>
      if c = '-' then (parseNatL rest).map (fun m => -(m : ℤ))
      else (parseNatL (c :: rest)).map (fun m => (m : ℤ))

/-- Rendering of a Python float (modelled as a rational) as a character
list: reduced numerator, slash, denominator. -/
def ratStrL (q : ℚ) : List Char := intToStrL q.num ++ '/' :: natToStrL q.den

/-- Parser for the output of `ratStrL` (models Python `float()` on the
rendered value). -/
def parseRatL (l : List Char) : Option ℚ :=
  if (l.dropWhile (· ≠ '/')).head? = some '/' then
    match parseIntL (l.takeWhile (· ≠ '/')), parseNatL (l.dropWhile (· ≠ '/')).tail with
    | some n, some d => if d = 0 then none else some ((n : ℚ) / (d : ℚ))
    | _, _ => none
  else (parseIntL l).map (fun n => (n : ℚ))

/-- ASCII upper-casing of one character. -/
def charUpper (c : Char) : Char :=
  if 'a' ≤ c ∧ c ≤ 'z' then Char.ofNat (c.toNat - 32) else c

/-- ASCII lower-casing of one character. -/
def charLower (c : Char) : Char :=
  if 'A' ≤ c ∧ c ≤ 'Z' then Char.ofNat (c.toNat + 32) else c

/-- Python `s.upper()` (ASCII fragment), executable at the kernel level. -/
def pyUpper (s : String) : String := ⟨s.data.map charUpper⟩

/-- Python `s.lower()` (ASCII fragment), executable at the kernel level. -/
def pyLower (s : String) : String := ⟨s.data.map charLower⟩

/-- Python `s[:n]` (character slicing), executable at the kernel level. -/
def pyTake (s : String) (n : ℕ) : String := ⟨s.data.take n⟩

/-- String versions of the conversions above. -/
def natToStr (n : ℕ) : String := ⟨natToStrL n⟩

/-- Python `str()` on an int. -/
def intToStr (n : ℤ) : String := ⟨intToStrL n⟩

/-- Python `str()` on a float (modelled). -/
def ratStr (q : ℚ) : String := ⟨ratStrL q⟩

/-- Python `int()` on a string (the fragment reachable from `str()` output). -/
def pyInt (s : String) : Option ℤ := parseIntL s.data

/-- Python `float()` on a string (modelled fragment). -/
def pyFloat (s : String) : Option ℚ := parseRatL s.data

/-! ## `data_models.py`: typed records

The catalog and order-processing layers always handle records whose
fields already have the declared Python types (catalog loading coerces
via `float()` / `int()`), so they are embedded with typed fields; the
`isinstance` parts of the dataclass validators are vacuous here and the
remaining checks are kept verbatim. -/

/-- A catalog `Product` with typed fields. -/
structure Product where
  product_id : String
  name : String
  description : String
  price : ℚ
  stock_quantity : ℤ
  category : String
deriving DecidableEq, Repr

/-- `Product.is_in_stock(quantity)` on a typed product. -/
def Product.is_in_stock (p : Product) (quantity : ℤ) : Bool :=
  quantity ≤ p.stock_quantity

/-- The invariant established by `Product.__post_init__` on typed fields. -/
def Product.valid (p : Product) : Prop :=
  p.product_id ≠ "" ∧ p.name ≠ "" ∧ 0 ≤ p.price ∧ 0 ≤ p.stock_quantity ∧ p.category ≠ ""

instance (p : Product) : Decidable p.valid := by unfold Product.valid; infer_instance

/-- An `Order` dataclass instance. -/
structure Order where
  product_id : String
  quantity : ℤ
  delivery_address : String
  product_name : Option String
deriving DecidableEq, Repr

/-- `Order(...)` construction: `__post_init__` checks in source order
(`product_name` is not validated). -/
def Order.new (product_id : String) (quantity : ℤ) (delivery_address : String)
    (product_name : Option String) : Except String Order :=
  if product_id = "" then .error "Product ID must be a non-empty string"
  else if quantity ≤ 0 then .error "Quantity must be a positive integer"
  else if delivery_address = "" then .error "Delivery address must be a non-empty string"
  else .ok ⟨product_id, quantity, delivery_address, product_name⟩

/-- A `StoredOrder` dataclass instance. -/
structure StoredOrder where
  order_id : String
  product_id : String
  product_name : String
  quantity : ℤ
  delivery_address : String
  order_date : String
  total_price : ℚ
deriving DecidableEq, Repr

/-- `StoredOrder(...)` construction: `__post_init__` checks in source
order (`order_date` is not validated). -/
def StoredOrder.new (order_id product_id product_name : String) (quantity : ℤ)
    (delivery_address order_date : String) (total_price : ℚ) :
    Except String StoredOrder :=
  if order_id = "" then .error "Order ID must be a non-empty string"
  else if product_id = "" then .error "Product ID must be a non-empty string"
  else if product_name = "" then .error "Product name must be a non-empty string"
  else if quantity ≤ 0 then .error "Quantity must be a positive integer"
  else if delivery_address = "" then .error "Delivery address must be a non-empty string"
  else if total_price < 0 then .error "Total price must be a non-negative number"
  else .ok ⟨order_id, product_id, product_name, quantity, delivery_address,
    order_date, total_price⟩

/-- The invariant established by `StoredOrder.__post_init__`. -/
def StoredOrder.valid (so : StoredOrder) : Prop :=
  so.order_id ≠ "" ∧ so.product_id ≠ "" ∧ so.product_name ≠ "" ∧
    0 < so.quantity ∧ so.delivery_address ≠ "" ∧ 0 ≤ so.total_price

instance (so : StoredOrder) : Decidable so.valid := by
  unfold StoredOrder.valid; infer_instance

/-- `StoredOrder.to_csv_row`. -/
def StoredOrder.to_csv_row (so : StoredOrder) : List String :=
  [so.order_id, so.product_id, so.product_name, intToStr so.quantity,
   so.delivery_address, so.order_date, ratStr so.total_price]

/-- `StoredOrder.from_csv_row`: length check, numeric parses (whose
failure raises, modelled as an error), then validated construction. -/
def StoredOrder.from_csv_row (row : List String) : Except String StoredOrder :=
  match row with
  | [a, b, c, d, e, f, g] =>
      match pyInt d with
      | none => .error "invalid literal for int()"
      | some qty =>
          match pyFloat g with
          | none => .error "could not convert string to float"
          | some tp => StoredOrder.new a b c qty e f tp
  | _ => .error "CSV row must have exactly 7 columns"

/-- `order.product_name or product.name`: Python truthiness makes an
empty supplied name fall back to the catalog name. -/
def storedName (pname : Option String) (catalogName : String) : String :=
  match pname with
  | some s => if s = "" then catalogName else s
  | none => catalogName

/-- `product_name and product_name.lower() != product.name.lower()`:
the name-mismatch condition of `process_order` (an empty supplied name
is falsy and skips the check). -/
def nameMismatch (pname : Option String) (catalogName : String) : Bool :=
  match pname with
  | some s => s ≠ "" && pyLower s != pyLower catalogName
  | none => false

/-- `StoredOrder.from_order(order, product, order_id=None)`.
The fresh uuid hex string and the current date are explicit parameters
(`uuidHex`, `today`); the generated id is `"ORD" + uuid.hex[:6].upper()`.
`order.product_name or product.name` uses Python truthiness: an empty
supplied name falls back to the catalog name. -/
def StoredOrder.from_order (order : Order) (product : Product)
    (order_id : Option String) (uuidHex : String) (today : String) :
    Except String StoredOrder :=
  let oid := match order_id with
    | some s => s
    | none => "ORD" ++ pyUpper (pyTake uuidHex 6)
  let stored_name := storedName order.product_name product.name
  StoredOrder.new oid order.product_id stored_name order.quantity
    order.delivery_address today (product.price * order.quantity)

/-! ## `order_processor.py`: `OrderProcessor`

State = the in-memory product table (a Python dict, modelled as an
association list keyed by product id, first match wins) plus the order
ledger (the CSV file body, modelled as the list of appended rows).
Environment effects (`uuid.uuid4().hex`, today, whether the CSV append
succeeds) are explicit parameters. -/

/-- Python `a in b` on strings (substring containment). -/
def containsSub (needle hay : String) : Bool :=
  decide (needle.data <:+: hay.data)

/-- Python `s.split()`: split on whitespace runs, dropping empty pieces. -/
def pyWords (s : String) : List String :=
  (s.split (·.isWhitespace)).filter (· ≠ "")

/-- Order-processor state: product table and ledger. -/
structure OPState where
  products : List (String × Product)
  ledger : List (List String)
deriving DecidableEq, Repr

/-- `self.products[product_id]` / `product_id in self.products`. -/
def lookupProduct (st : OPState) (pid : String) : Option Product :=
  (st.products.find? (fun kv => kv.1 = pid)).map (·.2)

/-- `self.products[product_id].stock_quantity -= quantity`: in-place
update of the dict entry (first matching key). -/
def updateStockFirst (l : List (String × Product)) (pid : String) (qty : ℤ) :
    List (String × Product) :=
  match l with
  | [] => []
  | (k, p) :: rest =>
      if k = pid then (k, { p with stock_quantity := p.stock_quantity - qty }) :: rest
      else (k, p) :: updateStockFirst rest pid qty

/-- The per-entry test of `_get_similar_products`. -/
def similarEntry (pidLower : String) (kv : String × Product) : Bool :=
  containsSub pidLower (pyLower kv.1) || containsSub pidLower (pyLower kv.2.name) ||
    (pyWords pidLower).any (fun w => containsSub w (pyLower kv.2.name))

/-- `OrderProcessor._get_similar_products`. -/
def get_similar_products (st : OPState) (product_id : String) : List String :=
  (st.products.filter (similarEntry (pyLower product_id))).map
    (fun kv => kv.1 ++ " (" ++ kv.2.name ++ ")")

/-- `OrderProcessor._get_category_alternatives`. -/
def get_category_alternatives (st : OPState) (category : String)
    (exclude_product_id : String) : List String :=
  (st.products.filter (fun kv =>
      kv.2.category == category && kv.1 != exclude_product_id &&
        decide (0 < kv.2.stock_quantity))).map
    (fun kv => kv.1 ++ " (" ++ kv.2.name ++ ")")

/-- `OrderProcessor.validate_product_availability`. -/
def validate_product_availability (st : OPState) (product_id : String)
    (quantity : ℤ) : Bool × String × Option Product :=
  match lookupProduct st product_id with
  | none =>
      let available := get_similar_products st product_id
      let message := "Product " ++ product_id ++ " not found."
      let message := if available ≠ [] then
          message ++ " Did you mean one of these: " ++
            String.intercalate ", " (available.take 5) ++ "?"
        else message
      (false, message, none)
  | some product =>
      if ¬ product.is_in_stock quantity then
        let message := "Insufficient stock for " ++ product.name ++ ". Available: " ++
          intToStr product.stock_quantity ++ ", Requested: " ++ intToStr quantity
        let message := if 0 < product.stock_quantity then
            message ++ ". You can order up to " ++ intToStr product.stock_quantity ++
              " units."
          else
            let alternatives := get_category_alternatives st product.category product_id
            if alternatives ≠ [] then
              message ++ " Consider these alternatives: " ++
                String.intercalate ", " (alternatives.take 3)
            else message
        (false, message, some product)
      else (true, "Product available", some product)

/-- The `order_details` sub-dictionary of a successful order result. -/
structure OrderDetails where
  product_name : String
  quantity : ℤ
  unit_price : ℚ
  total_price : ℚ
  delivery_address : String
  order_date : String
deriving DecidableEq, Repr

/-- The result dictionary of `OrderProcessor.process_order`.  Failure
dictionaries carry `order_id = None` and `total_price = None` and no
`order_details` key (modelled as `none`). -/
structure OrderResult where
  success : Bool
  message : String
  order_id : Option String
  total_price : Option ℚ
  order_details : Option OrderDetails
deriving DecidableEq, Repr

/-- A failure result dictionary. -/
def failResult (message : String) : OrderResult :=
  ⟨false, message, none, none, none⟩

/-- `OrderProcessor.save_order_to_csv`: appends one row and reports
success; `saveOk` models whether the file append raises. -/
def save_order_to_csv (ledger : List (List String)) (so : StoredOrder)
    (saveOk : Bool) : Bool × List (List String) :=
  if saveOk then (true, ledger ++ [so.to_csv_row]) else (false, ledger)

/-- `OrderProcessor.process_order`.  The surrounding `try` turns a
`ValueError` from either dataclass constructor into the
`"Invalid order data: ..."` failure and any other exception into the
generic failure; the function is total — it never raises. -/
def process_order (st : OPState) (product_id : String) (quantity : ℤ)
    (delivery_address : String) (product_name : Option String)
    (uuidHex : String) (today : String) (saveOk : Bool) :
    OrderResult × OPState :=
  match Order.new product_id quantity delivery_address product_name with
  | .error e => (failResult ("Invalid order data: " ++ e), st)
  | .ok order =>
    let v := validate_product_availability st product_id quantity
    if v.1 = false then (failResult v.2.1, st)
    else
      match v.2.2 with
      | none =>
          (failResult
            "An unexpected error occurred while processing your order. Please try again.",
           st)
      | some product =>
        let mismatch := nameMismatch product_name product.name
        if mismatch then
          (failResult ("Product name mismatch. Expected \x27" ++ product.name ++
            "\x27 for product ID " ++ product_id), st)
        else
          match StoredOrder.from_order order product none uuidHex today with
          | .error e => (failResult ("Invalid order data: " ++ e), st)
          | .ok stored_order =>
            let saved := save_order_to_csv st.ledger stored_order saveOk
            if saved.1 then
              ({ success := true
                 message := "Order " ++ stored_order.order_id ++
                   " placed successfully for " ++ product.name
                 order_id := some stored_order.order_id
                 total_price := some stored_order.total_price
                 order_details := some ⟨product.name, quantity, product.price,
                   stored_order.total_price, delivery_address, stored_order.order_date⟩ },
               { products := updateStockFirst st.products product_id quantity
                 ledger := saved.2 })
            else (failResult "Failed to save order. Please try again.", st)

/-! ## `sarvam_llm_service.py`: `_make_request_with_retry`

The HTTP transport is modelled as a function from the 0-indexed attempt
number to the observable outcome of that attempt.  `time.sleep` calls
are recorded in a wait list (in seconds).  The `for attempt in
range(max_retries + 1)` loop is embedded with an explicit remaining
iteration count; the entry point starts it at `max_retries + 1`. -/

/-- Outcome of one HTTP POST attempt, as the source discriminates it. -/
inductive HttpEvent where
  | respOk (body : String)
  | respBadJson
  | resp (code : ℕ) (text : String)
  | timeout
  | connError
  | reqExc (msg : String)
deriving DecidableEq, Repr

/-- The error kinds `_make_request_with_retry` can raise. -/
inductive ReqError where
  | auth
  | rateLimited
  | server (code : ℕ)
  | other (code : ℕ) (text : String)
  | timeoutE
  | connE
  | reqE (msg : String)
  | decodeE
  | generic
deriving DecidableEq, Repr

/-- Result, number of attempts made, and backoff waits performed. -/
structure RetryOutcome where
  result : Except ReqError String
  attempts : ℕ
  waits : List ℕ
deriving Repr

/-- `raise last_exception` / `raise Exception("API request failed after
all retries")` after the loop. -/
def errOf : Option ReqError → ReqError
  | some e => e
  | none => .generic

/-- The retry loop body.  Each recursive step is one loop iteration;
`2 ^ attempt :: _` records `_wait_with_backoff(attempt)`. -/
def runAttempts (maxRetries : ℕ) (events : ℕ → HttpEvent) :
    (remaining : ℕ) → (attempt : ℕ) → (last : Option ReqError) → RetryOutcome
  | 0, _, last => ⟨.error (errOf last), 0, []⟩
  | remaining + 1, attempt, last =>
    match events attempt with
    | .respOk body => ⟨.ok body, 1, []⟩
    | .respBadJson => ⟨.error .decodeE, 1, []⟩
    | .resp code text =>
        if code = 401 then ⟨.error .auth, 1, []⟩
        else if code = 429 then
          if attempt < maxRetries then
            let rest := runAttempts maxRetries events remaining (attempt + 1) last
            ⟨rest.result, rest.attempts + 1, 2 ^ attempt :: rest.waits⟩
          else ⟨.error .rateLimited, 1, []⟩
        else if 500 ≤ code ∧ code < 600 then
          if attempt < maxRetries then
            let rest := runAttempts maxRetries events remaining (attempt + 1) last
            ⟨rest.result, rest.attempts + 1, 2 ^ attempt :: rest.waits⟩
          else ⟨.error (.server code), 1, []⟩
        else ⟨.error (.other code text), 1, []⟩
    | .timeout =>
        if attempt < maxRetries then
          let rest := runAttempts maxRetries events remaining (attempt + 1) (some .timeoutE)
          ⟨rest.result, rest.attempts + 1, 2 ^ attempt :: rest.waits⟩
        else
          let rest := runAttempts maxRetries events remaining (attempt + 1) (some .timeoutE)
          ⟨rest.result, rest.attempts + 1, rest.waits⟩
    | .connError =>
        if attempt < maxRetries then
          let rest := runAttempts maxRetries events remaining (attempt + 1) (some .connE)
          ⟨rest.result, rest.attempts + 1, 2 ^ attempt :: rest.waits⟩
        else
          let rest := runAttempts maxRetries events remaining (attempt + 1) (some .connE)
          ⟨rest.result, rest.attempts + 1, rest.waits⟩
    | .reqExc msg =>
        if attempt < maxRetries then
          let rest := runAttempts maxRetries events remaining (attempt + 1) (some (.reqE msg))
          ⟨rest.result, rest.attempts + 1, 2 ^ attempt :: rest.waits⟩
        else
          let rest := runAttempts maxRetries events remaining (attempt + 1) (some (.reqE msg))
          ⟨rest.result, rest.attempts + 1, rest.waits⟩

/-- `SarvamLLMService._make_request_with_retry` for a given
`max_retries` configuration and transport behaviour. -/
def make_request_with_retry (maxRetries : ℕ) (events : ℕ → HttpEvent) :
    RetryOutcome :=
  runAttempts maxRetries events (maxRetries + 1) 0 none

/-- Events on which the loop retries (429, 5xx, timeout, connection
error, other request exceptions). -/
def retryable : HttpEvent → Bool
  | .resp code _ => code == 429 || (decide (500 ≤ code) && decide (code < 600))
  | .timeout => true
  | .connError => true
  | .reqExc _ => true
  | _ => false

/-! ## `rag_engine.py`: `RAGEngine.generate_response`

The engine's own loaded catalog (`self.products`) and the product list
passed to `generate_response` are separate arguments; the outcome of the
LLM call (`simple_completion`) is an explicit `Except` parameter. -/

/-- Insertion step for sorting strings (Python `sorted`). -/
def insertSortedStr (s : String) : List String → List String
  | [] => [s]
  | t :: rest => if s ≤ t then s :: t :: rest else t :: insertSortedStr s rest

/-- Ascending sort of strings (Python `sorted` on a list of strings). -/
def sortStrings : List String → List String
  | [] => []
  | s :: rest => insertSortedStr s (sortStrings rest)

/-- `RAGEngine._get_available_categories`: `sorted(set(categories))`,
the sorted distinct category names of the loaded catalog. -/
def get_available_categories (catalog : List Product) : List String :=
  sortStrings ((catalog.map (·.category)).dedup)

/-- `RAGEngine._generate_no_results_response`. -/
def generate_no_results_response (catalog : List Product) (query : String) : String :=
  "I couldn\x27t find any products matching \"" ++ query ++ "\" in our catalog. \n\n" ++
  "Here are some suggestions:\n" ++
  "- Try using different keywords or synonyms\n" ++
  "- Check for spelling errors\n" ++
  "- Use more general terms (e.g., \"chair\" instead of specific model names)\n" ++
  "- Browse our categories: " ++
  String.intercalate ", " (get_available_categories catalog) ++
  "\n\nWould you like me to show you our popular products or help you search for something else?"

/-- Two-digit zero padding. -/
def pad2 (n : ℕ) : String := if n < 10 then "0" ++ natToStr n else natToStr n

/-- Python `f"{q:.2f}"` on a non-negative price, modelled as rounding to
the nearest cent. -/
def fmt2f (q : ℚ) : String :=
  let cents : ℤ := round (q * 100)
  intToStr (cents / 100) ++ "." ++ pad2 (cents % 100).natAbs

/-- The `stock_info` expression of `_generate_fallback_response`. -/
def stock_info (p : Product) : String :=
  if 0 < p.stock_quantity then intToStr p.stock_quantity ++ " in stock"
  else "Out of stock"

/-- One numbered product block of the fallback response. -/
def fallbackBlock (i : ℕ) (p : Product) : String :=
  natToStr i ++ ". " ++ p.name ++ " - $" ++ fmt2f p.price ++ " (" ++ stock_info p ++
    ")\n   " ++ p.description.take 100 ++
    (if 100 < p.description.length then "..." else "")

/-- `for i, product in enumerate(products[:5], 1)` of the fallback. -/
def enumBlocks (i : ℕ) : List Product → List String
  | [] => []
  | p :: rest => fallbackBlock i p :: enumBlocks (i + 1) rest

/-- `RAGEngine._generate_fallback_response`. -/
def generate_fallback_response (catalog : List Product) (query : String)
    (products : List Product) : String :=
  if products = [] then generate_no_results_response catalog query
  else
    let response_parts :=
      ("I found " ++ natToStr products.length ++ " product(s) for your query \x27" ++
        query ++ "\x27:\n") :: enumBlocks 1 (products.take 5)
    let response_parts := if 5 < products.length then
        response_parts ++
          ["\n... and " ++ natToStr (products.length - 5) ++ " more products."]
      else response_parts
    String.intercalate "\n\n" response_parts

/-- `RAGEngine.generate_response`: empty product list short-circuits to
the no-results text; otherwise the LLM answer is returned, and any
generation failure falls back to the deterministic template. -/
def generate_response (catalog : List Product) (query : String)
    (products : List Product) (llm : Except String String) : String :=
  if products = [] then generate_no_results_response catalog query
  else
    match llm with
    | .ok response => response
    | .error _ => generate_fallback_response catalog query products

/-! ## `llamaindex_agent.py`: the registered `process_order` tool

The call into `OrderProcessor.process_order` is abstracted as an
`Except` parameter: `.ok` is a returned result dictionary, `.error` an
exception escaping the processor. -/

/-- What the tool hands back to the reasoning loop: the Python function
returns either the whole result dict or an error string. -/
inductive ToolRet where
  | dict (r : OrderResult)
  | str (s : String)
deriving DecidableEq, Repr

/-- The inner `process_order` function of
`LlamaIndexAgent._create_order_placement_tool`. -/
def process_order_tool (call : Except String OrderResult) : ToolRet :=
  match call with
  | .ok result => .dict result
  | .error e => .str ("I\x27m sorry, I encountered an error while placing your order: " ++ e)

/-! ## `chat_interface.py`: the `/respond` route

The assistant (a fresh `ChatInterface` whose `agentic_endpoint` forwards
the query to the orchestrator) is an oracle parameter; the second
component of the result is the trace of queries actually forwarded to a
constructed assistant. -/

/-- A JSON-ish response value: the incorrect-password branch returns a
Python set literal, the success branch a dict. -/
inductive ApiPayload where
  | pyset (elems : List String)
  | pydict (pairs : List (String × String))
deriving DecidableEq, Repr

/-- `response_endpoint` of `agentic_implemenatation`. -/
def response_endpoint (assistant : String → String) (password query : String) :
    ApiPayload × List String :=
  if password ≠ "abcd1234" then (.pyset ["result: Incorrect Password"], [])
  else (.pydict [("result", assistant query)], [query])

lemma digitChar_spec {d : ℕ} (h : d < 10) :
    isDigitCh (digitChar d) = true ∧ digitVal (digitChar d) = d := by
  interval_cases d <;> exact ⟨by decide, by decide⟩

lemma natToStrL_ne_nil (n : ℕ) : natToStrL n ≠ [] := by
  unfold natToStrL
  split
  · simp
  · next h =>
    simp only [ne_eq, List.reverse_eq_nil_iff, List.map_eq_nil_iff]
    exact Nat.digits_ne_nil_iff_ne_zero.mpr h

lemma natToStrL_digits {n : ℕ} {c : Char} (hc : c ∈ natToStrL n) :
    isDigitCh c = true := by
  unfold natToStrL at hc
  split at hc
  · rw [List.mem_singleton] at hc
    subst hc; decide
  · rw [List.mem_reverse, List.mem_map] at hc
    obtain ⟨d, hd, rfl⟩ := hc
    exact (digitChar_spec (Nat.digits_lt_base (by norm_num) hd)).1

lemma parseNatL_natToStrL (n : ℕ) : parseNatL (natToStrL n) = some n := by
  rcases eq_or_ne n 0 with rfl | h
  · decide
  · have hne := natToStrL_ne_nil n
    have hall : (natToStrL n).all isDigitCh = true :=
      List.all_eq_true.mpr fun c hc => natToStrL_digits hc
    unfold parseNatL
    rw [if_neg (by simpa [List.isEmpty_iff] using hne), if_pos hall]
    unfold natToStrL
    rw [if_neg h]
    congr 1
    rw [List.map_reverse, List.reverse_reverse, List.map_map]
    have : (Nat.digits 10 n).map (digitVal ∘ digitChar) = Nat.digits 10 n := by
      conv_rhs => rw [← List.map_id (Nat.digits 10 n)]
      apply List.map_congr_left
      intro d hd
      exact (digitChar_spec (Nat.digits_lt_base (by norm_num) hd)).2
    rw [this, Nat.ofDigits_digits]

lemma isDigitCh_ne_minus {c : Char} (h : isDigitCh c = true) : c ≠ '-' := by
  rintro rfl; simp [isDigitCh] at h

lemma isDigitCh_ne_slash {c : Char} (h : isDigitCh c = true) : c ≠ '/' := by
  rintro rfl; simp [isDigitCh] at h

lemma parseIntL_natToStrL (n : ℕ) : parseIntL (natToStrL n) = some (n : ℤ) := by
  obtain ⟨c, rest, hcr⟩ := List.exists_cons_of_ne_nil (natToStrL_ne_nil n)
  have hdig : isDigitCh c = true := natToStrL_digits (by rw [hcr]; exact List.mem_cons_self c rest)
  rw [hcr, parseIntL, if_neg (isDigitCh_ne_minus hdig), ← hcr, parseNatL_natToStrL]
  rfl

lemma parseIntL_intToStrL (n : ℤ) : parseIntL (intToStrL n) = some n := by
  unfold intToStrL
  split
  · next h =>
    rw [parseIntL, if_pos rfl, parseNatL_natToStrL]
    show some (-((n.natAbs : ℤ))) = some n
    congr 1
    omega
  · next h =>
    rw [parseIntL_natToStrL]
    show some ((n.natAbs : ℤ)) = some n
    congr 1
    omega

lemma intToStrL_no_slash {n : ℤ} {c : Char} (hc : c ∈ intToStrL n) : c ≠ '/' := by
  unfold intToStrL at hc
  split at hc
  · rcases List.mem_cons.mp hc with rfl | h
    · decide
    · exact isDigitCh_ne_slash (natToStrL_digits h)
  · exact isDigitCh_ne_slash (natToStrL_digits hc)

lemma takeWhile_append_stop {p : Char → Bool} {l₁ l₂ : List Char} {x : Char}
    (h : ∀ c ∈ l₁, p c = true) (hx : p x = false) :
    (l₁ ++ x :: l₂).takeWhile p = l₁ := by
  induction l₁ with
  | nil => simp [List.takeWhile, hx]
  | cons a l ih =>
    simp only [List.cons_append, List.takeWhile]
    rw [h a (List.mem_cons_self a l), List.cons.injEq]
    exact ⟨rfl, ih fun c hc => h c (List.mem_cons_of_mem a hc)⟩

lemma dropWhile_append_stop {p : Char → Bool} {l₁ l₂ : List Char} {x : Char}
    (h : ∀ c ∈ l₁, p c = true) (hx : p x = false) :
    (l₁ ++ x :: l₂).dropWhile p = x :: l₂ := by
  induction l₁ with
  | nil => simp [List.dropWhile, hx]
  | cons a l ih =>
    simp only [List.cons_append, List.dropWhile]
    rw [h a (List.mem_cons_self a l)]
    exact ih fun c hc => h c (List.mem_cons_of_mem a hc)

lemma parseRatL_ratStrL (q : ℚ) : parseRatL (ratStrL q) = some q := by
  have hno : ∀ c ∈ intToStrL q.num, (fun c => decide (c ≠ '/')) c = true := by
    intro c hc
    simpa using intToStrL_no_slash hc
  have hslash : (fun c => decide (c ≠ '/')) '/' = false := by decide
  unfold parseRatL ratStrL
  rw [dropWhile_append_stop hno hslash, takeWhile_append_stop hno hslash]
  simp only [List.head?_cons, List.tail_cons]
  rw [if_pos trivial, parseIntL_intToStrL, parseNatL_natToStrL]
  show (if q.den = 0 then none else some (((q.num : ℚ)) / ((q.den : ℚ)))) = some q
  rw [if_neg q.den_nz]
  congr 1
  exact_mod_cast Rat.num_div_den q

/-- Round trip on strings: `pyInt (intToStr n) = some n`. -/
lemma pyInt_intToStr (n : ℤ) : pyInt (intToStr n) = some n :=
  parseIntL_intToStrL n

/-- Round trip on strings: `pyFloat (ratStr q) = some q`. -/
lemma pyFloat_ratStr (q : ℚ) : pyFloat (ratStr q) = some q :=
  parseRatL_ratStrL q

/-! ## Helper lemmas about the dynamic `Product` validator -/

lemma truthyStr_iff (v : PyVal) :
    (v.truthy = true ∧ v.isStr = true) ↔ ∃ s, v = .str s ∧ s ≠ "" := by
  cases v <;> simp [PyVal.truthy, PyVal.isStr]

lemma numOk_iff (v : PyVal) :
    (v.isNum = true ∧ 0 ≤ v.numVal) ↔
      (∃ n : ℤ, v = .int n ∧ 0 ≤ n) ∨ (∃ q : ℚ, v = .float q ∧ 0 ≤ q) := by
  cases v <;> simp [PyVal.isNum, PyVal.numVal]

lemma intOk_iff (v : PyVal) :
    (v.isInt = true ∧ 0 ≤ v.numVal) ↔ ∃ n : ℤ, v = .int n ∧ 0 ≤ n := by
  cases v <;> simp [PyVal.isInt, PyVal.numVal]

/-! ## Helper lemmas about `StoredOrder` -/

lemma storedOrder_new_of_valid (so : StoredOrder) (h : so.valid) :
    StoredOrder.new so.order_id so.product_id so.product_name so.quantity
      so.delivery_address so.order_date so.total_price = .ok so := by
  obtain ⟨h1, h2, h3, h4, h5, h6⟩ := h
  unfold StoredOrder.new
  rw [if_neg h1, if_neg h2, if_neg h3, if_neg (by omega), if_neg h5,
    if_neg (not_lt.mpr h6)]

/-! ## Helper lemmas about sorting and the fallback blocks -/

lemma insertSortedStr_perm (s : String) (l : List String) :
    List.Perm (insertSortedStr s l) (s :: l) := by
  induction l with
  | nil => exact List.Perm.refl _
  | cons t rest ih =>
    unfold insertSortedStr
    split_ifs with h
    · exact List.Perm.refl _
    · exact (ih.cons t).trans (List.Perm.swap s t rest)

lemma sortStrings_perm (l : List String) : List.Perm (sortStrings l) l := by
  induction l with
  | nil => exact List.Perm.refl _
  | cons s rest ih =>
    exact (insertSortedStr_perm s (sortStrings rest)).trans (ih.cons s)

lemma insertSortedStr_sorted (s : String) (l : List String)
    (h : l.Sorted (· ≤ ·)) : (insertSortedStr s l).Sorted (· ≤ ·) := by
  induction l with
  | nil => simp [insertSortedStr]
  | cons t rest ih =>
    rw [List.sorted_cons] at h
    unfold insertSortedStr
    split_ifs with hle
    · rw [List.sorted_cons]
      constructor
      · intro b hb
        rcases List.mem_cons.mp hb with rfl | hb
        · exact hle
        · exact le_trans hle (h.1 b hb)
      · rw [List.sorted_cons]; exact h
    · rw [List.sorted_cons]
      refine ⟨?_, ih h.2⟩
      intro b hb
      rcases List.mem_cons.mp ((insertSortedStr_perm s rest).mem_iff.mp hb) with rfl | hb
      · exact le_of_not_le hle
      · exact h.1 b hb

lemma sortStrings_sorted (l : List String) : (sortStrings l).Sorted (· ≤ ·) := by
  induction l with
  | nil => simp [sortStrings]
  | cons s rest ih => exact insertSortedStr_sorted s (sortStrings rest) ih

lemma enumBlocks_eq (i : ℕ) (l : List Product) :
    enumBlocks i l = (List.enumFrom i l).map (fun ip => fallbackBlock ip.1 ip.2) := by
  induction l generalizing i with
  | nil => rfl
  | cons p rest ih => simp [enumBlocks, List.enumFrom, ih]

/-! ## Helper lemmas about the retry loop -/

lemma runAttempts_attempts_le (maxRetries : ℕ) (events : ℕ → HttpEvent) :
    ∀ remaining attempt last,
      (runAttempts maxRetries events remaining attempt last).attempts ≤ remaining := by
  intro remaining
  induction remaining with
  | zero => intro attempt last; exact Nat.le_refl 0
  | succ r ih =>
    intro attempt last
    unfold runAttempts
    split
    · exact Nat.le_add_left 1 r
    · exact Nat.le_add_left 1 r
    · split_ifs
      · exact Nat.le_add_left 1 r
      · exact Nat.succ_le_succ (ih (attempt + 1) last)
      · exact Nat.le_add_left 1 r
      · exact Nat.succ_le_succ (ih (attempt + 1) last)
      · exact Nat.le_add_left 1 r
      · exact Nat.le_add_left 1 r
    · split_ifs
      · exact Nat.succ_le_succ (ih (attempt + 1) (some .timeoutE))
      · exact Nat.succ_le_succ (ih (attempt + 1) (some .timeoutE))
    · split_ifs
      · exact Nat.succ_le_succ (ih (attempt + 1) (some .connE))
      · exact Nat.succ_le_succ (ih (attempt + 1) (some .connE))
    · next msg heq =>
      split_ifs
      · exact Nat.succ_le_succ (ih (attempt + 1) (some (.reqE msg)))
      · exact Nat.succ_le_succ (ih (attempt + 1) (some (.reqE msg)))

lemma runAttempts_waits_empty (maxRetries : ℕ) (events : ℕ → HttpEvent) :
    ∀ remaining attempt last, maxRetries ≤ attempt →
      (runAttempts maxRetries events remaining attempt last).waits = [] := by
  intro remaining
  induction remaining with
  | zero => intro attempt last _; rfl
  | succ r ih =>
    intro attempt last h
    have hnot : ¬ attempt < maxRetries := by omega
    unfold runAttempts
    split
    · rfl
    · rfl
    · split_ifs <;> rfl
    · rw [if_neg hnot]; exact ih (attempt + 1) (some .timeoutE) (by omega)
    · rw [if_neg hnot]; exact ih (attempt + 1) (some .connE) (by omega)
    · next msg heq =>
      rw [if_neg hnot]; exact ih (attempt + 1) (some (.reqE msg)) (by omega)

lemma range_pow_cons (a w : ℕ) :
    (2 ^ a) :: (List.range w).map (fun i => 2 ^ (a + 1 + i)) =
      (List.range (w + 1)).map (fun i => 2 ^ (a + i)) := by
  rw [List.range_succ_eq_map, List.map_cons, List.map_map]
  refine congrArg₂ _ (by rw [Nat.add_zero]) ?_
  apply List.map_congr_left
  intro i _
  show 2 ^ (a + 1 + i) = 2 ^ (a + (i + 1))
  rw [Nat.add_right_comm, Nat.add_assoc]

lemma runAttempts_waits_shape (maxRetries : ℕ) (events : ℕ → HttpEvent) :
    ∀ remaining attempt last, attempt + remaining ≤ maxRetries + 1 →
      ∃ w, (runAttempts maxRetries events remaining attempt last).waits =
        (List.range w).map (fun i => 2 ^ (attempt + i)) := by
  intro remaining
  induction remaining with
  | zero => intro attempt last _; exact ⟨0, rfl⟩
  | succ r ih =>
    intro attempt last hinv
    unfold runAttempts
    split
    · exact ⟨0, rfl⟩
    · exact ⟨0, rfl⟩
    · split_ifs
      · exact ⟨0, rfl⟩
      · obtain ⟨w, hw⟩ := ih (attempt + 1) last (by omega)
        exact ⟨w + 1, by simp only [hw]; exact range_pow_cons attempt w⟩
      · exact ⟨0, rfl⟩
      · obtain ⟨w, hw⟩ := ih (attempt + 1) last (by omega)
        exact ⟨w + 1, by simp only [hw]; exact range_pow_cons attempt w⟩
      · exact ⟨0, rfl⟩
      · exact ⟨0, rfl⟩
    · split_ifs with hlt
      · obtain ⟨w, hw⟩ := ih (attempt + 1) (some .timeoutE) (by omega)
        exact ⟨w + 1, by simp only [hw]; exact range_pow_cons attempt w⟩
      · refine ⟨0, ?_⟩
        exact runAttempts_waits_empty maxRetries events r (attempt + 1)
          (some .timeoutE) (by omega)
    · split_ifs with hlt
      · obtain ⟨w, hw⟩ := ih (attempt + 1) (some .connE) (by omega)
        exact ⟨w + 1, by simp only [hw]; exact range_pow_cons attempt w⟩
      · refine ⟨0, ?_⟩
        exact runAttempts_waits_empty maxRetries events r (attempt + 1)
          (some .connE) (by omega)
    · next msg heq =>
      split_ifs with hlt
      · obtain ⟨w, hw⟩ := ih (attempt + 1) (some (.reqE msg)) (by omega)
        exact ⟨w + 1, by simp only [hw]; exact range_pow_cons attempt w⟩
      · refine ⟨0, ?_⟩
        exact runAttempts_waits_empty maxRetries events r (attempt + 1)
          (some (.reqE msg)) (by omega)

/-- Assembling one wait-and-continue step of the loop onto an already
collapsed tail of `k` retryable attempts. -/
lemma combine_step (maxRetries : ℕ) (events : ℕ → HttpEvent)
    (attempt k r : ℕ) (last1 last2 : Option ReqError)
    (hrec : runAttempts maxRetries events r (attempt + 1) last1 =
      ⟨(runAttempts maxRetries events (r - k) (attempt + 1 + k) last2).result,
       (runAttempts maxRetries events (r - k) (attempt + 1 + k) last2).attempts + k,
       (List.range k).map (fun i => 2 ^ (attempt + 1 + i)) ++
         (runAttempts maxRetries events (r - k) (attempt + 1 + k) last2).waits⟩) :
    (⟨(runAttempts maxRetries events r (attempt + 1) last1).result,
      (runAttempts maxRetries events r (attempt + 1) last1).attempts + 1,
      2 ^ attempt :: (runAttempts maxRetries events r (attempt + 1) last1).waits⟩ :
        RetryOutcome) =
    ⟨(runAttempts maxRetries events (r + 1 - (k + 1)) (attempt + (k + 1)) last2).result,
     (runAttempts maxRetries events (r + 1 - (k + 1)) (attempt + (k + 1)) last2).attempts +
       (k + 1),
     (List.range (k + 1)).map (fun i => 2 ^ (attempt + i)) ++
       (runAttempts maxRetries events (r + 1 - (k + 1)) (attempt + (k + 1)) last2).waits⟩ := by
  have e1 : r + 1 - (k + 1) = r - k := by omega
  have e2 : attempt + (k + 1) = attempt + 1 + k := by omega
  rw [e1, e2, hrec]
  simp only [RetryOutcome.mk.injEq]
  refine ⟨trivial, by omega, ?_⟩
  rw [← List.cons_append, range_pow_cons]

/-- After `k` consecutive retryable attempts the loop is at attempt
`attempt + k`, having recorded `k` backoff waits of `2 ^ attempt, ...`. -/
lemma runAttempts_reach (maxRetries : ℕ) (events : ℕ → HttpEvent) :
    ∀ (k attempt remaining : ℕ) (last : Option ReqError),
      attempt + remaining = maxRetries + 1 →
      attempt + k ≤ maxRetries →
      (∀ j, attempt ≤ j → j < attempt + k → retryable (events j) = true) →
      ∃ last2,
        runAttempts maxRetries events remaining attempt last =
          { result := (runAttempts maxRetries events (remaining - k) (attempt + k) last2).result
            attempts :=
              (runAttempts maxRetries events (remaining - k) (attempt + k) last2).attempts + k
            waits := (List.range k).map (fun i => 2 ^ (attempt + i)) ++
              (runAttempts maxRetries events (remaining - k) (attempt + k) last2).waits } := by
  intro k
  induction k with
  | zero =>
    intro attempt remaining last _ _ _
    exact ⟨last, by simp⟩
  | succ k ih =>
    intro attempt remaining last hinv hk hpre
    have hlt : attempt < maxRetries := by omega
    obtain ⟨r, rfl⟩ : ∃ r, remaining = r + 1 := ⟨remaining - 1, by omega⟩
    have hretry : retryable (events attempt) = true :=
      hpre attempt (Nat.le_refl attempt) (by omega)
    have hpre1 : ∀ j, attempt + 1 ≤ j → j < attempt + 1 + k → retryable (events j) = true :=
      fun j h1 h2 => hpre j (by omega) (by omega)
    cases hev : events attempt with
    | respOk body => rw [hev] at hretry; exact absurd hretry (by simp [retryable])
    | respBadJson => rw [hev] at hretry; exact absurd hretry (by simp [retryable])
    | resp code text =>
      rw [hev] at hretry
      have hcode : code = 429 ∨ (500 ≤ code ∧ code < 600) := by
        simpa [retryable] using hretry
      obtain ⟨last2, hrec⟩ := ih (attempt + 1) r last (by omega) (by omega) hpre1
      refine ⟨last2, ?_⟩
      rcases hcode with rfl | h5
      · simp only [runAttempts, hev]
        rw [if_pos hlt]
        exact combine_step maxRetries events attempt k r last last2 hrec
      · simp only [runAttempts, hev]
        rw [if_neg (by omega), if_neg (by omega), if_pos h5, if_pos hlt]
        exact combine_step maxRetries events attempt k r last last2 hrec
    | timeout =>
      obtain ⟨last2, hrec⟩ := ih (attempt + 1) r (some .timeoutE) (by omega) (by omega) hpre1
      refine ⟨last2, ?_⟩
      simp only [runAttempts, hev]
      rw [if_pos hlt]
      exact combine_step maxRetries events attempt k r (some .timeoutE) last2 hrec
    | connError =>
      obtain ⟨last2, hrec⟩ := ih (attempt + 1) r (some .connE) (by omega) (by omega) hpre1
      refine ⟨last2, ?_⟩
      simp only [runAttempts, hev]
      rw [if_pos hlt]
      exact combine_step maxRetries events attempt k r (some .connE) last2 hrec
    | reqExc msg =>
      obtain ⟨last2, hrec⟩ := ih (attempt + 1) r (some (.reqE msg)) (by omega) (by omega) hpre1
      refine ⟨last2, ?_⟩
      simp only [runAttempts, hev]
      rw [if_pos hlt]
      exact combine_step maxRetries events attempt k r (some (.reqE msg)) last2 hrec

/-! ## Helper lemmas about the order processor -/

lemma ord_prefix_ne (s : String) : "ORD" ++ s ≠ "" := by
  intro h
  have hl := congrArg String.length h
  rw [String.length_append] at hl
  have h3 : "ORD".length = 3 := rfl
  have h0 : "".length = 0 := rfl
  rw [h3, h0] at hl
  omega

lemma lookup_updateStockFirst (l : List (String × Product)) (pid : String) (qty : ℤ) :
    List.find? (fun kv => kv.1 = pid) (updateStockFirst l pid qty) =
      (List.find? (fun kv => kv.1 = pid) l).map
        (fun kv => (kv.1, { kv.2 with stock_quantity := kv.2.stock_quantity - qty })) := by
  induction l with
  | nil => rfl
  | cons kv rest ih =>
    obtain ⟨k, p⟩ := kv
    unfold updateStockFirst
    by_cases hk : k = pid
    · subst hk
      rw [if_pos rfl, List.find?_cons_of_pos _ (by simp),
        List.find?_cons_of_pos _ (by simp)]
      rfl
    · rw [if_neg hk, List.find?_cons_of_neg _ (by simp [hk]),
        List.find?_cons_of_neg _ (by simp [hk]), ih]

lemma lookupProduct_update (st : OPState) (pid : String) (qty : ℤ) (product : Product)
    (h : lookupProduct st pid = some product) (l2 : List (List String)) :
    lookupProduct ⟨updateStockFirst st.products pid qty, l2⟩ pid =
      some { product with stock_quantity := product.stock_quantity - qty } := by
  unfold lookupProduct at h ⊢
  rw [lookup_updateStockFirst]
  cases hf : List.find? (fun kv => kv.1 = pid) st.products with
  | none => rw [hf] at h; cases h
  | some kv =>
    rw [hf] at h
    have hkv2 : kv.2 = product := by
      simpa using h
    simp [hkv2]

lemma validate_of_lookup (st : OPState) (pid : String) (q : ℤ) (p : Product)
    (h : lookupProduct st pid = some p) :
    (validate_product_availability st pid q).1 = p.is_in_stock q := by
  simp only [validate_product_availability, h]
  cases hb : p.is_in_stock q
  · rw [if_pos (by simp [hb])]
  · rw [if_neg (by simp [hb])]

lemma c2_fail {m : String} {stA stB : OPState} {res : OrderResult} {saveOk : Bool}
    (h : (failResult m, stA) = (res, stB)) :
    (res.success = false → stB = stA ∧ res.order_id = none ∧ res.total_price = none) ∧
    (stB ≠ stA → res.success = true ∧ saveOk = true) := by
  rw [Prod.mk.injEq] at h
  obtain ⟨hres, hst⟩ := h
  subst hres
  subst hst
  exact ⟨fun _ => ⟨rfl, rfl, rfl⟩, fun hne => absurd rfl hne⟩

/-! ## Claim theorems -/

/-- Claim C3, counterexample: a `Product` whose `description` is the
empty string constructs successfully — `__post_init__` never validates
`description`, so the claim that an empty description fails with
InvalidInput is false on the code. -/
theorem claim_C3_counterexample :
    productNew (.str "P1") (.str "Widget") (.str "") (.float 1) (.int 2)
      (.str "Tools") =
    .ok ⟨.str "P1", .str "Widget", .str "", .float 1, .int 2, .str "Tools"⟩ := by
  rfl

/-- Claim C3, amended: construction succeeds iff `product_id`, `name`
and `category` are non-empty strings, `price` is a non-negative number
and `stock_quantity` a non-negative integer — `description` is not
validated at all (any value, including an empty or non-string one, is
accepted); on success the stored fields are exactly the arguments and
`is_in_stock(n)` is true iff `stock_quantity >= n`. -/
theorem claim_C3_amended (pid name desc price stock cat : PyVal) :
    ((∃ p, productNew pid name desc price stock cat = .ok p) ↔
      ((∃ s, pid = .str s ∧ s ≠ "") ∧ (∃ s, name = .str s ∧ s ≠ "") ∧
       ((∃ n : ℤ, price = .int n ∧ 0 ≤ n) ∨ (∃ q : ℚ, price = .float q ∧ 0 ≤ q)) ∧
       (∃ n : ℤ, stock = .int n ∧ 0 ≤ n) ∧
       (∃ s, cat = .str s ∧ s ≠ ""))) ∧
    (∀ p, productNew pid name desc price stock cat = .ok p →
      p = ⟨pid, name, desc, price, stock, cat⟩ ∧
      ∀ n : ℤ, stock = .int n → ∀ q : ℤ, (p.is_in_stock q = true ↔ q ≤ n)) := by
  constructor
  · constructor
    · rintro ⟨p, hp⟩
      unfold productNew at hp
      split_ifs at hp with h1 h2 h3 h4 h5
      push_neg at h1 h2 h3 h4 h5
      refine ⟨(truthyStr_iff pid).mp ⟨h1.1, h1.2⟩, (truthyStr_iff name).mp ⟨h2.1, h2.2⟩,
        (numOk_iff price).mp ⟨h3.1, h3.2⟩,
        (intOk_iff stock).mp ⟨h4.1, h4.2⟩,
        (truthyStr_iff cat).mp ⟨h5.1, h5.2⟩⟩
    · rintro ⟨hpid, hname, hprice, hstock, hcat⟩
      have h1 := (truthyStr_iff pid).mpr hpid
      have h2 := (truthyStr_iff name).mpr hname
      have h3 := (numOk_iff price).mpr hprice
      have h4 := (intOk_iff stock).mpr hstock
      have h5 := (truthyStr_iff cat).mpr hcat
      refine ⟨⟨pid, name, desc, price, stock, cat⟩, ?_⟩
      unfold productNew
      rw [if_neg (by push_neg; exact ⟨h1.1, h1.2⟩),
        if_neg (by push_neg; exact ⟨h2.1, h2.2⟩),
        if_neg (by push_neg; exact ⟨h3.1, h3.2⟩),
        if_neg (by push_neg; exact ⟨h4.1, h4.2⟩),
        if_neg (by push_neg; exact ⟨h5.1, h5.2⟩)]
  · intro p hp
    unfold productNew at hp
    split_ifs at hp
    rw [Except.ok.injEq] at hp
    subst hp
    refine ⟨rfl, ?_⟩
    rintro n rfl q
    simp [RawProduct.is_in_stock]

/-- Witness for `claim_C3_amended` at concrete inputs (an accepted
product with a non-string description, whose stock check evaluates). -/
theorem claim_C3_amended_witness :
    (∃ p, productNew (.str "P1") (.str "Widget") (.int 7) (.float 2) (.int 3)
      (.str "Tools") = .ok p) ∧
    (RawProduct.is_in_stock ⟨.str "P1", .str "Widget", .int 7, .float 2, .int 3,
      .str "Tools"⟩ 2 = true ↔ (2 : ℤ) ≤ 3) := by
  constructor
  · exact (claim_C3_amended (.str "P1") (.str "Widget") (.int 7) (.float 2)
      (.int 3) (.str "Tools")).1.mpr
      ⟨⟨"P1", rfl, by decide⟩, ⟨"Widget", rfl, by decide⟩,
        .inr ⟨2, rfl, by norm_num⟩, ⟨3, rfl, by norm_num⟩,
        ⟨"Tools", rfl, by decide⟩⟩
  · exact ((claim_C3_amended (.str "P1") (.str "Widget") (.int 7) (.float 2)
      (.int 3) (.str "Tools")).2 _ (by rfl)).2 3 rfl 2

/-- Claim C4: for every validly constructed `StoredOrder`,
`from_csv_row (to_csv_row x)` reconstructs an equal record, and
`from_csv_row` on a row with fewer or more than 7 columns fails with the
InvalidInput message. -/
theorem claim_C4 :
    (∀ so : StoredOrder, so.valid →
      StoredOrder.from_csv_row so.to_csv_row = .ok so) ∧
    (∀ row : List String, row.length ≠ 7 →
      StoredOrder.from_csv_row row = .error "CSV row must have exactly 7 columns") := by
  constructor
  · intro so hv
    simp only [StoredOrder.to_csv_row, StoredOrder.from_csv_row,
      pyInt_intToStr, pyFloat_ratStr]
    exact storedOrder_new_of_valid so hv
  · intro row hrow
    rcases row with _ | ⟨a, _ | ⟨b, _ | ⟨c, _ | ⟨d, _ | ⟨e, _ | ⟨f, _ | ⟨g, _ | ⟨h, rest⟩⟩⟩⟩⟩⟩⟩⟩ <;>
      first
        | rfl
        | (exact absurd rfl hrow)

/-- Witness for `claim_C4` at a concrete stored order and a concrete
short row. -/
theorem claim_C4_witness :
    StoredOrder.from_csv_row
      (StoredOrder.to_csv_row ⟨"ORDAAAAAA", "P1", "Laptop", 2, "12 Main St",
        "2026-01-01", 100⟩) =
      .ok ⟨"ORDAAAAAA", "P1", "Laptop", 2, "12 Main St", "2026-01-01", 100⟩ ∧
    StoredOrder.from_csv_row ["only", "three", "cells"] =
      .error "CSV row must have exactly 7 columns" := by
  constructor
  · exact claim_C4.1 _ (by refine ⟨?_, ?_, ?_, ?_, ?_, ?_⟩ <;> decide)
  · exact claim_C4.2 _ (by decide)

/-- Claim C7 names a code bug: on a successful call into
`OrderProcessor.process_order` the registered tool returns the whole
result dictionary, not the result's message string (contradicting its
own `-> str` annotation and docstring); only the exception branch
returns a string. -/
theorem claim_C7_code_bug :
    process_order_tool (Except.ok ⟨true,
        "Order ORDAAAAAA placed successfully for Laptop", some "ORDAAAAAA",
        some 100, none⟩) =
      ToolRet.dict ⟨true, "Order ORDAAAAAA placed successfully for Laptop",
        some "ORDAAAAAA", some 100, none⟩ ∧
    (∀ s : String,
      ToolRet.dict ⟨true, "Order ORDAAAAAA placed successfully for Laptop",
        some "ORDAAAAAA", some 100, none⟩ ≠ ToolRet.str s) ∧
    (∀ e : String, process_order_tool (Except.error e) =
      ToolRet.str ("I\x27m sorry, I encountered an error while placing your order: " ++ e)) := by
  refine ⟨rfl, fun s h => ToolRet.noConfusion h, fun e => rfl⟩

/-- Claim C9: the `/respond` route with a wrong password returns the
fixed rejection payload and forwards nothing to the assistant (no
`ChatInterface` is constructed); with the right password the query is
forwarded exactly once and the answer comes back under the key
`result`. -/
theorem claim_C9 (assistant : String → String) (password query : String) :
    (password ≠ "abcd1234" →
      response_endpoint assistant password query =
        (.pyset ["result: Incorrect Password"], [])) ∧
    (password = "abcd1234" →
      response_endpoint assistant password query =
        (.pydict [("result", assistant query)], [query])) := by
  constructor
  · intro h
    simp [response_endpoint, h]
  · intro h
    simp [response_endpoint, h]

/-- Witness for `claim_C9` at concrete passwords and a concrete
assistant oracle. -/
theorem claim_C9_witness :
    response_endpoint (fun q => "ans " ++ q) "letmein" "hi" =
      (.pyset ["result: Incorrect Password"], []) ∧
    response_endpoint (fun q => "ans " ++ q) "abcd1234" "hi" =
      (.pydict [("result", "ans hi")], ["hi"]) :=
  ⟨(claim_C9 (fun q => "ans " ++ q) "letmein" "hi").1 (by decide),
   (claim_C9 (fun q => "ans " ++ q) "abcd1234" "hi").2 rfl⟩

/-- Claim C5: the retry protocol makes at most `max_retries + 1`
attempts; the backoff waits are always the consecutive powers
1, 2, 4, ...; a 401 response (after any retryable prefix) fails
immediately with no further attempt and no backoff wait; with
`max_retries = 3` an all-500 transport yields exactly 4 attempts then a
server-error failure; and a (429, 429, 200) transport waits 1s then 2s
and returns the 200 body. -/
theorem claim_C5 (maxRetries : ℕ) (events : ℕ → HttpEvent) :
    ((make_request_with_retry maxRetries events).attempts ≤ maxRetries + 1) ∧
    (∃ w, (make_request_with_retry maxRetries events).waits =
      (List.range w).map (fun i => 2 ^ i)) ∧
    (∀ k t, k ≤ maxRetries → (∀ j, j < k → retryable (events j) = true) →
      events k = .resp 401 t →
      make_request_with_retry maxRetries events =
        ⟨.error .auth, k + 1, (List.range k).map (fun i => 2 ^ i)⟩) ∧
    (maxRetries = 3 → (∀ k, ∃ t, events k = .resp 500 t) →
      make_request_with_retry maxRetries events =
        ⟨.error (.server 500), 4, [1, 2, 4]⟩) ∧
    (∀ body t0 t1, 2 ≤ maxRetries → events 0 = .resp 429 t0 →
      events 1 = .resp 429 t1 → events 2 = .respOk body →
      make_request_with_retry maxRetries events = ⟨.ok body, 3, [1, 2]⟩) := by
  refine ⟨?_, ?_, ?_, ?_, ?_⟩
  · exact runAttempts_attempts_le maxRetries events (maxRetries + 1) 0 none
  · obtain ⟨w, hw⟩ :=
      runAttempts_waits_shape maxRetries events (maxRetries + 1) 0 none (by omega)
    exact ⟨w, by simpa using hw⟩
  · intro k t hk hpre hev
    obtain ⟨last2, hr⟩ := runAttempts_reach maxRetries events k 0 (maxRetries + 1)
      none (by omega) (by omega) (fun j _ hj => hpre j (by omega))
    obtain ⟨r, hrem⟩ : ∃ r, maxRetries + 1 - k = r + 1 := ⟨maxRetries - k, by omega⟩
    have hX : runAttempts maxRetries events (r + 1) (0 + k) last2 =
        ⟨.error .auth, 1, []⟩ := by
      simp [runAttempts, hev]
    unfold make_request_with_retry
    rw [hr, hrem, hX]
    simp only [RetryOutcome.mk.injEq]
    exact ⟨by simp, by omega, by simp⟩
  · intro h3 hev
    subst h3
    obtain ⟨last2, hr⟩ := runAttempts_reach 3 events 3 0 4 none (by omega) (by omega)
      (fun j _ hj => by obtain ⟨t, ht⟩ := hev j; rw [ht]; simp [retryable])
    obtain ⟨t3, ht3⟩ := hev 3
    have hX : runAttempts 3 events (4 - 3) (0 + 3) last2 =
        ⟨.error (.server 500), 1, []⟩ := by
      show runAttempts 3 events 1 3 last2 = _
      simp [runAttempts, ht3]
    unfold make_request_with_retry
    rw [hr, hX]
    simp only [RetryOutcome.mk.injEq]
    exact ⟨by simp, by simp, by decide⟩
  · intro body t0 t1 h2 he0 he1 he2
    obtain ⟨last2, hr⟩ := runAttempts_reach maxRetries events 2 0 (maxRetries + 1)
      none (by omega) (by omega) (fun j _ hj => by
        have hj2 : j < 2 := by omega
        interval_cases j
        · rw [he0]; simp [retryable]
        · rw [he1]; simp [retryable])
    obtain ⟨r, hrem⟩ : ∃ r, maxRetries + 1 - 2 = r + 1 := ⟨maxRetries - 2, by omega⟩
    have hX : runAttempts maxRetries events (r + 1) (0 + 2) last2 =
        ⟨.ok body, 1, []⟩ := by
      simp [runAttempts, he2]
    unfold make_request_with_retry
    rw [hr, hrem, hX]
    simp only [RetryOutcome.mk.injEq]
    exact ⟨by simp, by simp, by decide⟩

/-- Witness for `claim_C5` at concrete transports: an immediate 401, an
all-500 transport with `max_retries = 3`, and a (429, 429, 200)
transport. -/
theorem claim_C5_witness :
    make_request_with_retry 3 (fun _ => .resp 401 "denied") =
      ⟨.error .auth, 1, []⟩ ∧
    make_request_with_retry 3 (fun _ => .resp 500 "boom") =
      ⟨.error (.server 500), 4, [1, 2, 4]⟩ ∧
    make_request_with_retry 3
        (fun k => if k = 0 then .resp 429 "a" else if k = 1 then .resp 429 "b"
          else .respOk "BODY") =
      ⟨.ok "BODY", 3, [1, 2]⟩ := by
  refine ⟨?_, ?_, ?_⟩
  · have h := (claim_C5 3 (fun _ => .resp 401 "denied")).2.2.1 0 "denied"
      (by omega) (fun j hj => absurd hj (by omega)) rfl
    simpa using h
  · exact (claim_C5 3 (fun _ => .resp 500 "boom")).2.2.2.1 rfl (fun k => ⟨"boom", rfl⟩)
  · exact (claim_C5 3 (fun k => if k = 0 then .resp 429 "a" else
      if k = 1 then .resp 429 "b" else .respOk "BODY")).2.2.2.2 "BODY" "a" "b"
      (by omega) rfl rfl rfl

/-- Claim C6: a 200 response whose body fails JSON decoding makes the
loop fail on that attempt with the decode error, with no further
attempts and no backoff wait after it (only the `k` waits of the
earlier retryable attempts are ever performed). -/
theorem claim_C6 (maxRetries : ℕ) (events : ℕ → HttpEvent) (k : ℕ)
    (hk : k ≤ maxRetries) (hpre : ∀ j, j < k → retryable (events j) = true)
    (hev : events k = .respBadJson) :
    make_request_with_retry maxRetries events =
      ⟨.error .decodeE, k + 1, (List.range k).map (fun i => 2 ^ i)⟩ := by
  obtain ⟨last2, hr⟩ := runAttempts_reach maxRetries events k 0 (maxRetries + 1)
    none (by omega) (by omega) (fun j _ hj => hpre j (by omega))
  obtain ⟨r, hrem⟩ : ∃ r, maxRetries + 1 - k = r + 1 := ⟨maxRetries - k, by omega⟩
  have hX : runAttempts maxRetries events (r + 1) (0 + k) last2 =
      ⟨.error .decodeE, 1, []⟩ := by
    simp [runAttempts, hev]
  unfold make_request_with_retry
  rw [hr, hrem, hX]
  simp only [RetryOutcome.mk.injEq]
  exact ⟨by simp, by omega, by simp⟩

/-- Witness for `claim_C6`: one timeout, then a 200 with an undecodable
body, under the default `max_retries = 3`. -/
theorem claim_C6_witness :
    make_request_with_retry 3 (fun k => if k = 0 then .timeout else .respBadJson) =
      ⟨.error .decodeE, 2, [1]⟩ := by
  have h := claim_C6 3 (fun k => if k = 0 then .timeout else .respBadJson) 1
    (by omega) (fun j hj => by interval_cases j; rfl) rfl
  simpa using h

/-- Claim C8: with an empty product list `generate_response` returns
the fixed no-results text containing the query and the sorted distinct
available categories (independent of the LLM); with a non-empty list
and a failed LLM call it returns the deterministic fallback: a count
line, then one block per product for at most the first 5, each with the
description truncated to 100 characters and an ellipsis appended
exactly when the description is longer, plus a trailing note naming the
remaining count exactly when more than 5 matched. -/
theorem claim_C8 (catalog : List Product) (query : String) :
    (∀ llm, generate_response catalog query [] llm =
      "I couldn\x27t find any products matching \"" ++ query ++ "\" in our catalog. \n\n" ++
      "Here are some suggestions:\n" ++
      "- Try using different keywords or synonyms\n" ++
      "- Check for spelling errors\n" ++
      "- Use more general terms (e.g., \"chair\" instead of specific model names)\n" ++
      "- Browse our categories: " ++
      String.intercalate ", " (get_available_categories catalog) ++
      "\n\nWould you like me to show you our popular products or help you search for something else?") ∧
    ((get_available_categories catalog).Sorted (· ≤ ·) ∧
      (get_available_categories catalog).Nodup ∧
      ∀ c, c ∈ get_available_categories catalog ↔ c ∈ catalog.map (·.category)) ∧
    (∀ products e, products ≠ [] →
      generate_response catalog query products (.error e) =
        String.intercalate "\n\n"
          (("I found " ++ natToStr products.length ++
              " product(s) for your query \x27" ++ query ++ "\x27:\n") ::
            (List.enumFrom 1 (products.take 5)).map (fun ip =>
              natToStr ip.1 ++ ". " ++ ip.2.name ++ " - $" ++ fmt2f ip.2.price ++ " (" ++
                (if 0 < ip.2.stock_quantity then
                  intToStr ip.2.stock_quantity ++ " in stock"
                else "Out of stock") ++
                ")\n   " ++ ip.2.description.take 100 ++
                (if 100 < ip.2.description.length then "..." else "")) ++
            (if 5 < products.length then
              ["\n... and " ++ natToStr (products.length - 5) ++ " more products."]
            else [])) ∧
      (List.enumFrom 1 (products.take 5)).length = min 5 products.length) := by
  refine ⟨fun llm => rfl, ⟨sortStrings_sorted _, ?_, ?_⟩, ?_⟩
  · exact ((sortStrings_perm _).nodup_iff).mpr (List.nodup_dedup _)
  · intro c
    unfold get_available_categories
    rw [(sortStrings_perm _).mem_iff, List.mem_dedup]
  · intro products e hne
    constructor
    · unfold generate_response generate_fallback_response
      rw [if_neg hne, if_neg hne]
      split_ifs with h5
      · simp [enumBlocks_eq, fallbackBlock, stock_info]
      · simp [enumBlocks_eq, fallbackBlock, stock_info]
    · simp [List.length_take]

/-- Witness for `claim_C8` at a concrete catalog, query and singleton
product list with a failed LLM call. -/
theorem claim_C8_witness :
    generate_response [⟨"P1", "Chair", "Solid oak chair", 20, 3, "seating"⟩] "hi"
        [⟨"P1", "Chair", "Solid oak chair", 20, 3, "seating"⟩] (.error "down") =
      String.intercalate "\n\n"
        (("I found " ++
            natToStr ([(⟨"P1", "Chair", "Solid oak chair", 20, 3, "seating"⟩ : Product)]).length ++
            " product(s) for your query \x27" ++ "hi" ++ "\x27:\n") ::
          (List.enumFrom 1
              ([(⟨"P1", "Chair", "Solid oak chair", 20, 3, "seating"⟩ : Product)].take 5)).map
            (fun ip =>
              natToStr ip.1 ++ ". " ++ ip.2.name ++ " - $" ++ fmt2f ip.2.price ++ " (" ++
                (if 0 < ip.2.stock_quantity then
                  intToStr ip.2.stock_quantity ++ " in stock"
                else "Out of stock") ++
                ")\n   " ++ ip.2.description.take 100 ++
                (if 100 < ip.2.description.length then "..." else "")) ++
          (if 5 < ([(⟨"P1", "Chair", "Solid oak chair", 20, 3, "seating"⟩ : Product)]).length then
            ["\n... and " ++
              natToStr
                (([(⟨"P1", "Chair", "Solid oak chair", 20, 3, "seating"⟩ : Product)]).length - 5) ++
              " more products."]
          else [])) ∧
    (List.enumFrom 1
        ([(⟨"P1", "Chair", "Solid oak chair", 20, 3, "seating"⟩ : Product)].take 5)).length =
      min 5 ([(⟨"P1", "Chair", "Solid oak chair", 20, 3, "seating"⟩ : Product)]).length :=
  (claim_C8 [⟨"P1", "Chair", "Solid oak chair", 20, 3, "seating"⟩] "hi").2.2
    [⟨"P1", "Chair", "Solid oak chair", 20, 3, "seating"⟩] "down" (by decide)

/-- The success path of `process_order`, shared by several claims:
known product, sufficient stock, matching (or absent) supplied name,
successful CSV append. -/
lemma process_order_success_spec (st : OPState) (pid : String) (qty : ℤ) (addr : String)
    (pname : Option String) (uuidHex today : String) (product : Product)
    (res : OrderResult) (st2 : OPState)
    (hproc : process_order st pid qty addr pname uuidHex today true = (res, st2))
    (hlook : lookupProduct st pid = some product)
    (hstock : qty ≤ product.stock_quantity)
    (hqty : 0 < qty) (hpid : pid ≠ "") (haddr : addr ≠ "")
    (hname : ∀ s, pname = some s → s ≠ "" ∧ pyLower s = pyLower product.name)
    (hpname : product.name ≠ "") (hprice : 0 ≤ product.price) :
    res.success = true ∧
    res.message = "Order " ++ ("ORD" ++ pyUpper (pyTake uuidHex 6)) ++
      " placed successfully for " ++ product.name ∧
    res.order_id = some ("ORD" ++ pyUpper (pyTake uuidHex 6)) ∧
    res.total_price = some (product.price * qty) ∧
    st2.ledger = st.ledger ++
      [["ORD" ++ pyUpper (pyTake uuidHex 6), pid, pname.getD product.name,
        intToStr qty, addr, today, ratStr (product.price * qty)]] ∧
    lookupProduct st2 pid =
      some { product with stock_quantity := product.stock_quantity - qty } ∧
    (∀ q2, (validate_product_availability st2 pid q2).1 =
      decide (q2 ≤ product.stock_quantity - qty)) := by
  have hord : Order.new pid qty addr pname = .ok ⟨pid, qty, addr, pname⟩ := by
    unfold Order.new
    rw [if_neg hpid, if_neg (by omega), if_neg haddr]
  have hval : validate_product_availability st pid qty =
      (true, "Product available", some product) := by
    simp only [validate_product_availability, hlook]
    rw [if_neg (by simp [Product.is_in_stock, hstock])]
  have hmis : nameMismatch pname product.name = false := by
    cases pname with
    | none => rfl
    | some s =>
      obtain ⟨hs1, hs2⟩ := hname s rfl
      simp [nameMismatch, hs2]
  have hsname : storedName pname product.name = pname.getD product.name := by
    cases pname with
    | none => rfl
    | some s =>
      obtain ⟨hs1, _⟩ := hname s rfl
      simp [storedName, hs1]
  have hnam2 : pname.getD product.name ≠ "" := by
    cases pname with
    | none => simpa using hpname
    | some s => simpa using (hname s rfl).1
  have htot : (0 : ℚ) ≤ product.price * (qty : ℚ) :=
    mul_nonneg hprice (by exact_mod_cast hqty.le)
  have hso : StoredOrder.from_order ⟨pid, qty, addr, pname⟩ product none uuidHex today =
      .ok ⟨"ORD" ++ pyUpper (pyTake uuidHex 6), pid, pname.getD product.name, qty,
        addr, today, product.price * qty⟩ := by
    unfold StoredOrder.from_order
    dsimp only
    rw [hsname]
    unfold StoredOrder.new
    rw [if_neg (ord_prefix_ne _), if_neg hpid, if_neg hnam2, if_neg (by omega),
      if_neg haddr, if_neg (not_lt.mpr htot)]
  simp only [process_order, hord, hval, hmis, hso, save_order_to_csv, if_true] at hproc
  rw [if_neg (show ¬(true = false) by decide),
    if_neg (show ¬(false = true) by decide)] at hproc
  rw [Prod.mk.injEq] at hproc
  obtain ⟨hres, hst2⟩ := hproc
  subst hres
  subst hst2
  refine ⟨rfl, rfl, rfl, rfl, rfl, ?_, ?_⟩
  · exact lookupProduct_update st pid qty product hlook _
  · intro q2
    rw [validate_of_lookup _ pid q2 _ (lookupProduct_update st pid qty product hlook _)]
    rfl

/-- Claim C1: for a known product with sufficient stock and a
case-insensitively matching (or absent) supplied name, `process_order`
succeeds, appends exactly one row to the ledger, decrements that
product's in-memory stock by the requested quantity, reports
`total_price = unit price * quantity` and the success message with the
generated order id and the catalog product name; a subsequent
availability check on the same product sees the decremented stock. -/
theorem claim_C1 (st : OPState) (pid : String) (qty : ℤ) (addr : String)
    (pname : Option String) (uuidHex today : String) (product : Product)
    (res : OrderResult) (st2 : OPState)
    (hproc : process_order st pid qty addr pname uuidHex today true = (res, st2))
    (hlook : lookupProduct st pid = some product)
    (hstock : qty ≤ product.stock_quantity)
    (hqty : 0 < qty) (hpid : pid ≠ "") (haddr : addr ≠ "")
    (hname : ∀ s, pname = some s → s ≠ "" ∧ pyLower s = pyLower product.name)
    (hpname : product.name ≠ "") (hprice : 0 ≤ product.price) :
    res.success = true ∧
    res.message = "Order " ++ ("ORD" ++ pyUpper (pyTake uuidHex 6)) ++
      " placed successfully for " ++ product.name ∧
    res.order_id = some ("ORD" ++ pyUpper (pyTake uuidHex 6)) ∧
    res.total_price = some (product.price * qty) ∧
    st2.ledger = st.ledger ++
      [["ORD" ++ pyUpper (pyTake uuidHex 6), pid, pname.getD product.name,
        intToStr qty, addr, today, ratStr (product.price * qty)]] ∧
    lookupProduct st2 pid =
      some { product with stock_quantity := product.stock_quantity - qty } ∧
    (∀ q2, (validate_product_availability st2 pid q2).1 =
      decide (q2 ≤ product.stock_quantity - qty)) :=
  process_order_success_spec st pid qty addr pname uuidHex today product res st2
    hproc hlook hstock hqty hpid haddr hname hpname hprice

/-- Witness for `claim_C1` at a concrete one-product catalog. -/
theorem claim_C1_witness :
    (process_order ⟨[("P1", ⟨"P1", "Laptop", "d", 10, 5, "cat"⟩)], []⟩
      "P1" 2 "12 Main St" none "abc123" "2026-01-01" true).1.success = true ∧
    (process_order ⟨[("P1", ⟨"P1", "Laptop", "d", 10, 5, "cat"⟩)], []⟩
      "P1" 2 "12 Main St" none "abc123" "2026-01-01" true).1.message =
      "Order " ++ ("ORD" ++ pyUpper (pyTake "abc123" 6)) ++
        " placed successfully for " ++ "Laptop" ∧
    (process_order ⟨[("P1", ⟨"P1", "Laptop", "d", 10, 5, "cat"⟩)], []⟩
      "P1" 2 "12 Main St" none "abc123" "2026-01-01" true).1.order_id =
      some ("ORD" ++ pyUpper (pyTake "abc123" 6)) ∧
    (process_order ⟨[("P1", ⟨"P1", "Laptop", "d", 10, 5, "cat"⟩)], []⟩
      "P1" 2 "12 Main St" none "abc123" "2026-01-01" true).1.total_price =
      some ((10 : ℚ) * (2 : ℤ)) ∧
    (process_order ⟨[("P1", ⟨"P1", "Laptop", "d", 10, 5, "cat"⟩)], []⟩
      "P1" 2 "12 Main St" none "abc123" "2026-01-01" true).2.ledger =
      [] ++ [["ORD" ++ pyUpper (pyTake "abc123" 6), "P1",
        (none : Option String).getD "Laptop", intToStr 2, "12 Main St",
        "2026-01-01", ratStr ((10 : ℚ) * (2 : ℤ))]] ∧
    lookupProduct (process_order ⟨[("P1", ⟨"P1", "Laptop", "d", 10, 5, "cat"⟩)], []⟩
      "P1" 2 "12 Main St" none "abc123" "2026-01-01" true).2 "P1" =
      some ⟨"P1", "Laptop", "d", 10, 5 - 2, "cat"⟩ ∧
    (∀ q2, (validate_product_availability
      (process_order ⟨[("P1", ⟨"P1", "Laptop", "d", 10, 5, "cat"⟩)], []⟩
        "P1" 2 "12 Main St" none "abc123" "2026-01-01" true).2 "P1" q2).1 =
      decide (q2 ≤ 5 - 2)) :=
  claim_C1 ⟨[("P1", ⟨"P1", "Laptop", "d", 10, 5, "cat"⟩)], []⟩ "P1" 2 "12 Main St"
    none "abc123" "2026-01-01" ⟨"P1", "Laptop", "d", 10, 5, "cat"⟩
    (process_order ⟨[("P1", ⟨"P1", "Laptop", "d", 10, 5, "cat"⟩)], []⟩
      "P1" 2 "12 Main St" none "abc123" "2026-01-01" true).1
    (process_order ⟨[("P1", ⟨"P1", "Laptop", "d", 10, 5, "cat"⟩)], []⟩
      "P1" 2 "12 Main St" none "abc123" "2026-01-01" true).2
    rfl (by decide)
    (by decide) (by decide) (by decide) (by decide) (fun s hs => nomatch hs)
    (by decide) (by decide)

/-- Claim C2: `process_order` is total (all failures are returned as
structured result records); every unsuccessful result carries
`order_id = None` and `total_price = None` and leaves the processor
state (product table and ledger) unchanged, and the state changes only
on a successful result, which requires the ledger append to have
succeeded. -/
theorem claim_C2 (st : OPState) (pid : String) (qty : ℤ) (addr : String)
    (pname : Option String) (uuidHex today : String) (saveOk : Bool)
    (res : OrderResult) (st2 : OPState)
    (hproc : process_order st pid qty addr pname uuidHex today saveOk = (res, st2)) :
    (res.success = false → st2 = st ∧ res.order_id = none ∧ res.total_price = none) ∧
    (st2 ≠ st → res.success = true ∧ saveOk = true) := by
  unfold process_order at hproc
  split at hproc
  · exact c2_fail hproc
  · dsimp only at hproc
    split at hproc
    · exact c2_fail hproc
    · split at hproc
      · exact c2_fail hproc
      · split at hproc
        · exact c2_fail hproc
        · split at hproc
          · exact c2_fail hproc
          · split at hproc
            case isTrue hsv =>
              rw [Prod.mk.injEq] at hproc
              obtain ⟨hres, hst2⟩ := hproc
              subst hres
              subst hst2
              constructor
              · intro h
                exact absurd h (by simp)
              · intro _
                refine ⟨rfl, ?_⟩
                cases saveOk with
                | true => rfl
                | false => simp [save_order_to_csv] at hsv
            case isFalse hsv => exact c2_fail hproc

/-- Witness for `claim_C2` at a concrete failing call (unknown product
id on an empty catalog). -/
theorem claim_C2_witness :
    (process_order ⟨[], []⟩ "P1" 1 "12 Main St" none "abc123" "2026-01-01" true).2 =
      ⟨[], []⟩ ∧
    (process_order ⟨[], []⟩ "P1" 1 "12 Main St" none "abc123"
      "2026-01-01" true).1.order_id = none ∧
    (process_order ⟨[], []⟩ "P1" 1 "12 Main St" none "abc123"
      "2026-01-01" true).1.total_price = none :=
  (claim_C2 ⟨[], []⟩ "P1" 1 "12 Main St" none "abc123" "2026-01-01" true
    (process_order ⟨[], []⟩ "P1" 1 "12 Main St" none "abc123" "2026-01-01" true).1
    (process_order ⟨[], []⟩ "P1" 1 "12 Main St" none "abc123" "2026-01-01" true).2
    rfl).1 (by decide)

/-- Claim C10, counterexample: an `Order` carrying the supplied
product_name `""` (a supplied name, but falsy in Python) is persisted
with the catalog name, not the caller-supplied string, because
`order.product_name or product.name` treats the empty string as absent
— so the claim that every supplied product_name is persisted is false
as stated. -/
theorem claim_C10_counterexample :
    StoredOrder.from_order ⟨"P1", 1, "12 Main St", some ""⟩
        ⟨"P1", "Laptop", "d", 10, 5, "cat"⟩ none "abc123" "2026-01-01" =
      .ok ⟨"ORDABC123", "P1", "Laptop", 1, "12 Main St", "2026-01-01", 10⟩ ∧
    ("Laptop" : String) ≠ "" := by
  constructor
  · unfold StoredOrder.from_order
    dsimp only
    simp only [storedName, if_pos rfl]
    unfold StoredOrder.new
    rw [if_neg (ord_prefix_ne _), if_neg (by decide), if_neg (by decide),
      if_neg (by decide), if_neg (by decide), if_neg (by norm_num)]
    rw [Except.ok.injEq, StoredOrder.mk.injEq]
    refine ⟨by decide, rfl, rfl, rfl, rfl, rfl, by norm_num⟩
  · decide

/-- Claim C10, amended: `from_order` persists the caller-supplied
product_name whenever it is a non-empty string, falling back to the
catalog product's name when it is absent or empty (Python truthiness);
consequently a successful `process_order` whose supplied name matches
the catalog name only case-insensitively writes the caller's letter
case, not the catalog's, into the ledger row. -/
theorem claim_C10_amended :
    (∀ (order : Order) (product : Product) (uuidHex today : String) (s : String),
      order.product_name = some s → s ≠ "" →
      ∀ so, StoredOrder.from_order order product none uuidHex today = .ok so →
        so.product_name = s) ∧
    (∀ (order : Order) (product : Product) (uuidHex today : String),
      (order.product_name = none ∨ order.product_name = some "") →
      ∀ so, StoredOrder.from_order order product none uuidHex today = .ok so →
        so.product_name = product.name) ∧
    (∃ (res : OrderResult) (st2 : OPState),
      process_order ⟨[("P1", ⟨"P1", "Laptop", "d", 10, 5, "cat"⟩)], []⟩
        "P1" 1 "12 Main St" (some "laptop") "abc123" "2026-01-01" true = (res, st2) ∧
      res.success = true ∧
      st2.ledger = [] ++ [["ORD" ++ pyUpper (pyTake "abc123" 6), "P1",
        (some "laptop" : Option String).getD "Laptop", intToStr 1, "12 Main St",
        "2026-01-01", ratStr ((10 : ℚ) * ((1 : ℤ) : ℚ))]] ∧
      (some "laptop" : Option String).getD "Laptop" = "laptop" ∧
      ("laptop" : String) ≠ "Laptop" ∧
      pyLower "laptop" = pyLower "Laptop") := by
  refine ⟨?_, ?_, ?_⟩
  · intro order product uuidHex today s hs hne so hok
    unfold StoredOrder.from_order at hok
    dsimp only at hok
    rw [hs] at hok
    simp only [storedName, if_neg hne] at hok
    unfold StoredOrder.new at hok
    split_ifs at hok
    rw [Except.ok.injEq] at hok
    subst hok
    rfl
  · intro order product uuidHex today hcase so hok
    unfold StoredOrder.from_order at hok
    dsimp only at hok
    rcases hcase with hc | hc <;> rw [hc] at hok
    · unfold StoredOrder.new at hok
      split_ifs at hok
      rw [Except.ok.injEq] at hok
      subst hok
      rfl
    · simp only [storedName, if_pos rfl] at hok
      unfold StoredOrder.new at hok
      split_ifs at hok
      rw [Except.ok.injEq] at hok
      subst hok
      rfl
  · have h := process_order_success_spec
      ⟨[("P1", ⟨"P1", "Laptop", "d", 10, 5, "cat"⟩)], []⟩ "P1" 1 "12 Main St"
      (some "laptop") "abc123" "2026-01-01" ⟨"P1", "Laptop", "d", 10, 5, "cat"⟩
      (process_order ⟨[("P1", ⟨"P1", "Laptop", "d", 10, 5, "cat"⟩)], []⟩
        "P1" 1 "12 Main St" (some "laptop") "abc123" "2026-01-01" true).1
      (process_order ⟨[("P1", ⟨"P1", "Laptop", "d", 10, 5, "cat"⟩)], []⟩
        "P1" 1 "12 Main St" (some "laptop") "abc123" "2026-01-01" true).2
      rfl (by decide) (by decide) (by decide) (by decide) (by decide)
      (fun s hs => by
        injection hs with hs2
        subst hs2
        exact ⟨by decide, by decide⟩)
      (by decide) (by decide)
    exact ⟨_, _, rfl, h.1, h.2.2.2.2.1, rfl, by decide, by decide⟩

/-- Witness for `claim_C10_amended` at concrete orders: a supplied
lower-case name is persisted verbatim and an absent name falls back to
the catalog name. -/
theorem claim_C10_amended_witness :
    (StoredOrder.mk ("ORD" ++ pyUpper (pyTake "abc123" 6)) "P1" "laptop" 1
      "12 Main St" "2026-01-01" ((10 : ℚ) * ((1 : ℤ) : ℚ))).product_name =
      "laptop" ∧
    (StoredOrder.mk ("ORD" ++ pyUpper (pyTake "abc123" 6)) "P1" "Laptop" 1
      "12 Main St" "2026-01-01" ((10 : ℚ) * ((1 : ℤ) : ℚ))).product_name =
      "Laptop" := by
  constructor
  · exact claim_C10_amended.1 ⟨"P1", 1, "12 Main St", some "laptop"⟩
      ⟨"P1", "Laptop", "d", 10, 5, "cat"⟩ "abc123" "2026-01-01" "laptop" rfl
      (by decide)
      (StoredOrder.mk ("ORD" ++ pyUpper (pyTake "abc123" 6)) "P1" "laptop" 1
        "12 Main St" "2026-01-01" ((10 : ℚ) * ((1 : ℤ) : ℚ)))
      (by
        unfold StoredOrder.from_order
        dsimp only
        simp only [storedName, if_neg (show ¬("laptop" = "") by decide)]
        unfold StoredOrder.new
        rw [if_neg (ord_prefix_ne _), if_neg (by decide), if_neg (by decide),
          if_neg (by decide), if_neg (by decide), if_neg (by norm_num)])
  · exact claim_C10_amended.2.1 ⟨"P1", 1, "12 Main St", none⟩
      ⟨"P1", "Laptop", "d", 10, 5, "cat"⟩ "abc123" "2026-01-01" (Or.inl rfl)
      (StoredOrder.mk ("ORD" ++ pyUpper (pyTake "abc123" 6)) "P1" "Laptop" 1
        "12 Main St" "2026-01-01" ((10 : ℚ) * ((1 : ℤ) : ℚ)))
      (by
        unfold StoredOrder.from_order
        dsimp only
        simp only [storedName]
        unfold StoredOrder.new
        rw [if_neg (ord_prefix_ne _), if_neg (by decide), if_neg (by decide),
          if_neg (by decide), if_neg (by decide), if_neg (by norm_num)])

end ProductAssistant
